import Mathlib

/-
Verification of the signup-form state management and submission lifecycle
of src/frontend/src/components/Signup.jsx.

The component keeps a JavaScript object `form` with the three properties
email, password and name (created by
`useState({ email: '', password: '', name: '' })`), updates one property
per input-change event with a spread copy `setForm({ ...form, f: v })`,
and on submit runs `e.preventDefault()` followed by
`console.log('Signing up with:', form)`.

JavaScript objects are embedded as ordered association lists of
string keys and string values (JS objects preserve key insertion order),
so that claims about which keys a state contains are meaningful.
-/

namespace Signup

/-- A JavaScript object with string-valued properties, as an ordered
association list of key/value pairs. -/
abbrev Obj := List (String × String)

/-- Property read `o[k]`: the value at the first occurrence of key `k`,
or `none` when the key is absent (JS `undefined`). -/
def Obj.getKey : Obj → String → Option String
  | [], _ => none
  | (k, v) :: rest, key => if k = key then some v else Obj.getKey rest key

/-- Whether the object has the property `k`. -/
def Obj.hasKey (o : Obj) (k : String) : Bool := (o.getKey k).isSome

/-- The object's keys, in insertion order. -/
def Obj.keys (o : Obj) : List String := o.map Prod.fst

/-- Spread update `{ ...o, key: v }`: every entry of `o` is copied in
order; if `key` is already present its value is overwritten in place,
otherwise a new entry is appended at the end. -/
def Obj.set : Obj → String → String → Obj
  | [], key, v => [(key, v)]
  | (k, w) :: rest, key, v =>
    if k = key then (k, v) :: rest else (k, w) :: Obj.set rest key v

/-- The three form fields bound by the component's three inputs. -/
inductive Field
  | name
  | email
  | password
deriving DecidableEq

/-- The JS property key each field is stored under. -/
def Field.key : Field → String
  | .name => "name"
  | .email => "email"
  | .password => "password"

/-- The initial form state `useState({ email: '', password: '', name: '' })`. -/
def initialForm : Obj := [("email", ""), ("password", ""), ("name", "")]

/-- The update `setForm({ ...form, f: v })` performed by the onChange
handler of the input bound to field `f`. -/
def setField (form : Obj) (f : Field) (v : String) : Obj :=
  form.set f.key v

/-- The data carried by a platform submit event. `handleSubmit` uses the
event only to suppress its default action; the other members are inert. -/
structure SubmitEvent where
  timeStamp : Nat
  targetId : String
  isTrusted : Bool

/-- Observable effects of a handler invocation: suppression of the
default action, an outbound hand-off of a payload to the diagnostic
sink (`console.log`), or a page navigation. -/
inductive Effect
  | preventDefault
  | consoleLog (payload : Obj)
  | navigation
deriving DecidableEq

/-- Effect trace of
`handleSubmit = (e) => { e.preventDefault(); console.log('Signing up with:', form); }`:
the default action is suppressed first, then the current form is handed
to the log sink. No navigation is ever emitted and the state is not
touched. -/
def handleSubmit (e : SubmitEvent) (form : Obj) : List Effect :=
  [Effect.preventDefault, Effect.consoleLog form]

/-- Whether an effect is a page navigation. -/
def Effect.isNavigation : Effect → Bool
  | .navigation => true
  | _ => false

/-- The payloads handed off to the outbound sink within an effect trace. -/
def logsOf (effs : List Effect) : List Obj :=
  effs.filterMap fun eff =>
    match eff with
    | Effect.consoleLog p => some p
    | _ => none

/-- How many page navigations an effect trace performs. -/
def navCount (effs : List Effect) : Nat :=
  (effs.filter Effect.isNavigation).length

/-- Inbound platform events: an input-change event carrying the field
attribute and the new raw text, or a submit trigger. -/
inductive Event
  | inputChange (field : String) (rawText : String)
  | submitTrigger (e : SubmitEvent)

/-- Handler dispatch for an input-change event. The component binds
exactly three onChange handlers, one per rendered input; an event naming
any other field reaches no handler and is rejected (`none`). -/
def dispatchInput (form : Obj) (field rawText : String) : Option Obj :=
  if field = "name" then some (setField form Field.name rawText)
  else if field = "email" then some (setField form Field.email rawText)
  else if field = "password" then some (setField form Field.password rawText)
  else none

/-- The form state after one event. A rejected input-change event has no
handler and leaves the state untouched; `handleSubmit` never writes the
state. -/
def stepState (form : Obj) : Event → Obj
  | .inputChange f v => (dispatchInput form f v).getD form
  | .submitTrigger _ => form

/-- The effects emitted while handling one event. -/
def stepEffects (form : Obj) : Event → List Effect
  | .inputChange _ _ => []
  | .submitTrigger e => handleSubmit e form

/-- The form state after a sequence of events. -/
def runState (form : Obj) : List Event → Obj
  | [] => form
  | ev :: rest => runState (stepState form ev) rest

/-- The effect trace of a sequence of events. -/
def runEffects (form : Obj) : List Event → List Effect
  | [] => []
  | ev :: rest => stepEffects form ev ++ runEffects (stepState form ev) rest

/-- The value attribute each input displays, read off the JSX bindings
`value={form.name}`, `value={form.email}`, `value={form.password}`. -/
def displayedValue (form : Obj) : Field → Option String
  | .name => form.getKey "name"
  | .email => form.getKey "email"
  | .password => form.getKey "password"

/-- The form state of the spec's scenario, `{name:"Ada", email:"ada@x.com",
password:""}`, in the object's key order. -/
def adaForm : Obj := [("email", "ada@x.com"), ("password", ""), ("name", "Ada")]

theorem Obj.keys_nil : Obj.keys [] = [] := rfl

theorem Obj.keys_cons (k w : String) (tl : Obj) :
    Obj.keys ((k, w) :: tl) = k :: Obj.keys tl := rfl

theorem Obj.getKey_set_self (o : Obj) (k v : String) :
    (o.set k v).getKey k = some v := by
  induction o with
  | nil => simp [Obj.set, Obj.getKey]
  | cons hd tl ih =>
    obtain ⟨k₁, w⟩ := hd
    by_cases h : k₁ = k
    · simp [Obj.set, Obj.getKey, h]
    · simp [Obj.set, Obj.getKey, h, ih]

theorem Obj.getKey_set_other (o : Obj) (k k' v : String) (h : k' ≠ k) :
    (o.set k v).getKey k' = o.getKey k' := by
  have h' : k ≠ k' := Ne.symm h
  induction o with
  | nil => simp [Obj.set, Obj.getKey, h']
  | cons hd tl ih =>
    obtain ⟨k₁, w⟩ := hd
    by_cases h₁ : k₁ = k
    · have h₂ : ¬(k₁ = k') := by rw [h₁]; exact h'
      simp [Obj.set, Obj.getKey, h₁, h₂, h']
    · by_cases h₂ : k₁ = k'
      · simp [Obj.set, Obj.getKey, h₁, h₂, h]
      · simp [Obj.set, Obj.getKey, h₁, h₂, ih]

theorem Obj.set_idem (o : Obj) (k v : String) :
    (o.set k v).set k v = o.set k v := by
  induction o with
  | nil => simp [Obj.set]
  | cons hd tl ih =>
    obtain ⟨k₁, w⟩ := hd
    by_cases h : k₁ = k
    · simp [Obj.set, h]
    · simp [Obj.set, h, ih]

theorem Obj.keys_set_of_mem (o : Obj) (k v : String) (h : k ∈ Obj.keys o) :
    Obj.keys (o.set k v) = Obj.keys o := by
  induction o with
  | nil => simp [Obj.keys_nil] at h
  | cons hd tl ih =>
    obtain ⟨k₁, w⟩ := hd
    by_cases h₁ : k₁ = k
    · simp [Obj.set, Obj.keys_cons, h₁]
    · have hk : k ∈ Obj.keys tl := by
        rw [Obj.keys_cons, List.mem_cons] at h
        rcases h with h | h
        · exact absurd h.symm h₁
        · exact h
      simp [Obj.set, Obj.keys_cons, h₁, ih hk]

theorem Obj.hasKey_iff_mem_keys (o : Obj) (k : String) :
    o.hasKey k = true ↔ k ∈ Obj.keys o := by
  induction o with
  | nil => simp [Obj.hasKey, Obj.getKey, Obj.keys_nil]
  | cons hd tl ih =>
    obtain ⟨k₁, w⟩ := hd
    by_cases h : k₁ = k
    · simp [Obj.hasKey, Obj.getKey, Obj.keys_cons, h]
    · have h' : k ≠ k₁ := fun hh => h (Eq.symm hh)
      simp only [Obj.hasKey, Obj.getKey, if_neg h, Obj.keys_cons, List.mem_cons]
      simp only [Obj.hasKey] at ih
      simp [ih, h']

theorem Obj.set_comm (o : Obj) (k₁ k₂ v₁ v₂ : String) (hne : k₁ ≠ k₂)
    (h₁ : k₁ ∈ Obj.keys o) :
    (o.set k₁ v₁).set k₂ v₂ = (o.set k₂ v₂).set k₁ v₁ := by
  induction o with
  | nil => simp [Obj.keys_nil] at h₁
  | cons hd tl ih =>
    obtain ⟨k, w⟩ := hd
    by_cases hk₁ : k = k₁
    · have hk₂ : ¬(k = k₂) := by rw [hk₁]; exact hne
      simp [Obj.set, hk₁, hk₂, hne]
    · by_cases hk₂ : k = k₂
      · simp [Obj.set, hk₁, hk₂, Ne.symm hne]
      · have hmem : k₁ ∈ Obj.keys tl := by
          rw [Obj.keys_cons, List.mem_cons] at h₁
          rcases h₁ with h | h
          · exact absurd h.symm hk₁
          · exact h
        simp [Obj.set, hk₁, hk₂, ih hmem]

theorem getKey_isSome_of_mem_keys (o : Obj) (k : String) (h : k ∈ Obj.keys o) :
    (o.getKey k).isSome = true :=
  (Obj.hasKey_iff_mem_keys o k).mpr h

theorem stepState_keys (form : Obj) (ev : Event)
    (h : ∀ f : Field, f.key ∈ Obj.keys form) :
    Obj.keys (stepState form ev) = Obj.keys form := by
  cases ev with
  | submitTrigger e => rfl
  | inputChange f v =>
    simp only [stepState, dispatchInput]
    by_cases h₁ : f = "name"
    · simpa [h₁, setField, Field.key] using
        Obj.keys_set_of_mem form "name" v (h Field.name)
    · by_cases h₂ : f = "email"
      · simpa [h₁, h₂, setField, Field.key] using
          Obj.keys_set_of_mem form "email" v (h Field.email)
      · by_cases h₃ : f = "password"
        · simpa [h₁, h₂, h₃, setField, Field.key] using
            Obj.keys_set_of_mem form "password" v (h Field.password)
        · simp [h₁, h₂, h₃]

theorem runState_keys (evs : List Event) (form : Obj)
    (h : ∀ f : Field, f.key ∈ Obj.keys form) :
    Obj.keys (runState form evs) = Obj.keys form := by
  induction evs generalizing form with
  | nil => rfl
  | cons ev rest ih =>
    have hs := stepState_keys form ev h
    have h' : ∀ f : Field, f.key ∈ Obj.keys (stepState form ev) := by
      intro f
      rw [hs]
      exact h f
    calc Obj.keys (runState form (ev :: rest))
        = Obj.keys (runState (stepState form ev) rest) := rfl
      _ = Obj.keys (stepState form ev) := ih (stepState form ev) h'
      _ = Obj.keys form := hs

theorem initialForm_hasField (f : Field) : f.key ∈ Obj.keys initialForm := by
  cases f <;> decide

theorem reachable_keys (evs : List Event) :
    Obj.keys (runState initialForm evs) = ["email", "password", "name"] :=
  runState_keys evs initialForm initialForm_hasField

/-- C1: applying the input-change update `set(f, v)` stores the raw text `v`
exactly (no trimming, validation or character rejection) in field `f` and
leaves the other two fields at their pre-update values, for every form state
(hence after any sequence of updates) and every string `v`. -/
theorem claim_C1 (form : Obj) (f : Field) (v : String) :
    (setField form f v).getKey f.key = some v ∧
      ∀ g : Field, g ≠ f → (setField form f v).getKey g.key = form.getKey g.key := by
  refine ⟨Obj.getKey_set_self form f.key v, ?_⟩
  intro g hg
  have hkey : g.key ≠ f.key := by
    cases f <;> cases g <;> first | exact absurd rfl hg | decide
  exact Obj.getKey_set_other form f.key g.key v hkey

theorem claim_C1_witness :
    (setField initialForm Field.name "Ada").getKey "name" = some "Ada" ∧
      (setField initialForm Field.name "Ada").getKey "email" = initialForm.getKey "email" :=
  ⟨(claim_C1 initialForm Field.name "Ada").1,
    (claim_C1 initialForm Field.name "Ada").2 Field.email (by decide)⟩

/-- C2: on every submit trigger, `handleSubmit` suppresses the default
navigation first (the very first effect of every invocation, with no
precondition on the form state, hence also when all three fields are empty),
and no navigation effect is ever emitted. -/
theorem claim_C2 (e : SubmitEvent) (form : Obj) :
    (handleSubmit e form).head? = some Effect.preventDefault ∧
      navCount (handleSubmit e form) = 0 :=
  ⟨rfl, rfl⟩

/-- C3: each submit trigger hands off exactly one payload to the outbound
log sink, namely the then-current form snapshot, and performs zero page
navigations; in particular from the state `{name:"Ada", email:"ada@x.com",
password:""}` (reached by the spec's scenario updates) the single payload is
exactly that record. -/
theorem claim_C3 (e : SubmitEvent) (form : Obj) :
    logsOf (handleSubmit e form) = [form] ∧
      navCount (handleSubmit e form) = 0 ∧
      runState initialForm
        [Event.inputChange "name" "Ada", Event.inputChange "email" "ada@x.com"] = adaForm ∧
      logsOf (handleSubmit e adaForm) = [adaForm] :=
  ⟨rfl, rfl, by decide, rfl⟩

/-- C4: at creation all three fields are the empty string, every reachable
state keeps all three keys bound to a defined string value (the lookup is
never `none`/undefined), and each input's displayed value equals the state's
value for its field. -/
theorem claim_C4 :
    (∀ f : Field, initialForm.getKey f.key = some "") ∧
      (∀ (evs : List Event) (f : Field),
        ((runState initialForm evs).getKey f.key).isSome = true) ∧
      (∀ (evs : List Event) (f : Field),
        displayedValue (runState initialForm evs) f =
          (runState initialForm evs).getKey f.key) := by
  refine ⟨?_, ?_, ?_⟩
  · intro f
    cases f <;> rfl
  · intro evs f
    apply getKey_isSome_of_mem_keys
    rw [reachable_keys]
    cases f <;> decide
  · intro evs f
    cases f <;> rfl

/-- C5: field updates are idempotent: applying `set(f, v)` twice in a row
yields the same state as applying it once, in particular for
`set("password", "hunter2")`. -/
theorem claim_C5 (form : Obj) (f : Field) (v : String) :
    setField (setField form f v) f v = setField form f v ∧
      setField (setField form Field.password "hunter2") Field.password "hunter2" =
        setField form Field.password "hunter2" :=
  ⟨Obj.set_idem form f.key v, Obj.set_idem form "password" "hunter2"⟩

/-- C6: submission leaves the form state unchanged: after `handleSubmit`
runs the state equals the state before the submit (no reset, no clearing),
and the subsequent evolution is as if the submit had not happened. -/
theorem claim_C6 (form : Obj) (e : SubmitEvent) (evs : List Event) :
    runState form [Event.submitTrigger e] = form ∧
      runState form (Event.submitTrigger e :: evs) = runState form evs :=
  ⟨rfl, rfl⟩

/-- C7: the snapshot handed to the outbound sink on a submit is immune to
later edits: whatever sequence of events follows the submit, the payload
recorded for that submit stays the snapshot taken at submit time. -/
theorem claim_C7 (form : Obj) (e : SubmitEvent) (evs : List Event) :
    logsOf (runEffects form (Event.submitTrigger e :: evs)) =
      form :: logsOf (runEffects form evs) ∧
      (logsOf (runEffects form (Event.submitTrigger e :: evs))).head? = some form := by
  have h : logsOf (runEffects form (Event.submitTrigger e :: evs)) =
      form :: logsOf (runEffects form evs) := by
    show logsOf (handleSubmit e form ++ runEffects form evs) =
      form :: logsOf (runEffects form evs)
    unfold logsOf
    rw [List.filterMap_append]
    rfl
  refine ⟨h, ?_⟩
  rw [h]
  rfl

/-- C8: an input-change dispatch succeeds exactly when its field key is one
of the three known keys (any other key reaches no handler and is rejected,
never silently applied), and no reachable state ever contains any key other
than email, password and name. -/
theorem claim_C8 :
    (∀ (form : Obj) (field v : String),
      (dispatchInput form field v).isSome = true ↔
        field = "name" ∨ field = "email" ∨ field = "password") ∧
      (∀ evs : List Event,
        Obj.keys (runState initialForm evs) = ["email", "password", "name"]) := by
  refine ⟨?_, reachable_keys⟩
  intro form field v
  unfold dispatchInput
  by_cases h₁ : field = "name"
  · simp [h₁]
  · by_cases h₂ : field = "email"
    · simp [h₁, h₂]
    · by_cases h₃ : field = "password"
      · simp [h₁, h₂, h₃]
      · simp [h₁, h₂, h₃]

theorem claim_C8_witness :
    (dispatchInput initialForm "name" "Ada").isSome = true :=
  (claim_C8.1 initialForm "name" "Ada").mpr (Or.inl rfl)

/-- C9: updates to distinct fields commute: on every form state (every state
reachable from the initial one), updating field `f` then field `g` with
`f ≠ g` yields the same state as updating in the opposite order. -/
theorem claim_C9 (evs : List Event) (f g : Field) (u v : String) (h : f ≠ g) :
    setField (setField (runState initialForm evs) f u) g v =
      setField (setField (runState initialForm evs) g v) f u := by
  have hne : f.key ≠ g.key := by
    cases f <;> cases g <;> first | exact absurd rfl h | decide
  have hmem : f.key ∈ Obj.keys (runState initialForm evs) := by
    rw [reachable_keys]
    cases f <;> decide
  exact Obj.set_comm (runState initialForm evs) f.key g.key u v hne hmem

theorem claim_C9_witness :
    setField (setField (runState initialForm []) Field.name "u") Field.email "v" =
      setField (setField (runState initialForm []) Field.email "v") Field.name "u" :=
  claim_C9 [] Field.name Field.email "u" "v" (by decide)

/-- C10: the submitted payload is a deterministic function of the form state
alone: two submit triggers fired from equal states hand off equal payloads,
the whole effect trace is independent of the submit event's data, and the
payload is exactly the current state. -/
theorem claim_C10 (e₁ e₂ : SubmitEvent) (s₁ s₂ : Obj) (h : s₁ = s₂) :
    logsOf (handleSubmit e₁ s₁) = logsOf (handleSubmit e₂ s₂) ∧
      handleSubmit e₁ s₁ = handleSubmit e₂ s₂ ∧
      logsOf (handleSubmit e₁ s₁) = [s₁] := by
  subst h
  exact ⟨rfl, rfl, rfl⟩

theorem claim_C10_witness :
    logsOf (handleSubmit ⟨0, "signup-form", true⟩ initialForm) =
      logsOf (handleSubmit ⟨1, "other-form", false⟩ initialForm) :=
  (claim_C10 ⟨0, "signup-form", true⟩ ⟨1, "other-form", false⟩
    initialForm initialForm rfl).1

end Signup
